import Mathlib

/-!
Verification of the WHO outbreak-data pipeline core
(`who_outbreak_pipeline/pipelines/who_data`): a shallow embedding of the
Cleaner (`nodes_clean.py`), the Feature Engine (`nodes_features.py`), the
Splitter (`split_by_year`) and the Trainer/Evaluator/Forecaster column
contract (`nodes_model.py`), together with theorems settling the spec's
claims about them.

Modelling conventions: pandas float cells that may be NaN become `Option`
values (`none` = NaN/missing); numeric values are embedded as `Rat` where
the code manipulates them exactly, and as `Real` where the code takes
square roots (standard deviations); dataframes become lists of records;
`sort_values` is modelled by a stable sort on the same keys.
-/

namespace WhoPipeline

/-! ### Numeric token extraction — `_coerce_num` (nodes_clean.py lines 15-24)

`_coerce_num` runs `re.search` with the pattern
`[-+]?\d*\.?\d+(?:[eE][-+]?\d+)?` over the string form of the cell and
converts the leftmost match with `float`.  `searchNum` mirrors the leftmost
search with the backtracking the pattern allows; `tokenToRat` mirrors the
numeric conversion of the matched token (exact, rather than IEEE-rounded).
-/

/-- Digit run at the head of a character list: the matched digits. -/
def digitsVal (ds : List Char) : Nat :=
  ds.foldl (fun n c => 10 * n + (c.toNat - 48)) 0

/-- Match `\d*\.?\d+` at the head of `cs`, with the backtracking `re`
performs; returns the matched characters and the remainder. -/
def matchMantissa (cs : List Char) : Option (List Char × List Char) :=
  let ds := cs.takeWhile Char.isDigit
  let r1 := cs.dropWhile Char.isDigit
  match r1 with
  | '.' :: r2 =>
    let fs := r2.takeWhile Char.isDigit
    if fs.isEmpty then (if ds.isEmpty then none else some (ds, r1))
    else some (ds ++ '.' :: fs, r2.dropWhile Char.isDigit)
  | _ => if ds.isEmpty then none else some (ds, r1)

/-- Match the optional exponent `(?:[eE][-+]?\d+)?` at the head of `cs`;
returns the matched characters (possibly `[]`) and the remainder. -/
def matchExpPart (cs : List Char) : List Char × List Char :=
  match cs with
  | c :: r1 =>
    if c = 'e' ∨ c = 'E' then
      match r1 with
      | s :: r2 =>
        if s = '+' ∨ s = '-' then
          let ds := r2.takeWhile Char.isDigit
          if ds.isEmpty then ([], cs) else (c :: s :: ds, r2.dropWhile Char.isDigit)
        else
          let ds := r1.takeWhile Char.isDigit
          if ds.isEmpty then ([], cs) else (c :: ds, r1.dropWhile Char.isDigit)
      | [] => ([], cs)
    else ([], cs)
  | [] => ([], cs)

/-- Match the full pattern `[-+]?\d*\.?\d+(?:[eE][-+]?\d+)?` anchored at the
head of `cs`. -/
def matchNumAt (cs : List Char) : Option (List Char) :=
  match cs with
  | [] => none
  | c :: r1 =>
    if c = '+' ∨ c = '-' then
      match matchMantissa r1 with
      | some (m, rest) => some (c :: (m ++ (matchExpPart rest).1))
      | none => none
    else
      match matchMantissa (c :: r1) with
      | some (m, rest) => some (m ++ (matchExpPart rest).1)
      | none => none

/-- Leftmost match of the numeric pattern anywhere in the string
(`re.search` semantics). -/
def searchNum : List Char → Option (List Char)
  | [] => none
  | c :: cs =>
    match matchNumAt (c :: cs) with
    | some m => some m
    | none => searchNum cs

/-- Convert a matched numeric token (sign, integer part, optional fraction,
optional exponent) to an exact rational. -/
def tokenToRat (cs : List Char) : Rat :=
  let sgnTail : Rat × List Char :=
    match cs with
    | c :: r => if c = '-' then (-1, r) else if c = '+' then (1, r) else (1, c :: r)
    | [] => (1, [])
  let cs1 := sgnTail.2
  let ip := cs1.takeWhile Char.isDigit
  let r1 := cs1.dropWhile Char.isDigit
  let fpR2 : List Char × List Char :=
    match r1 with
    | '.' :: r => (r.takeWhile Char.isDigit, r.dropWhile Char.isDigit)
    | _ => ([], r1)
  let fp := fpR2.1
  let e : Int :=
    match fpR2.2 with
    | _ :: r3 =>
      match r3 with
      | c :: r4 =>
        if c = '-' then -(digitsVal (r4.takeWhile Char.isDigit) : Int)
        else if c = '+' then (digitsVal (r4.takeWhile Char.isDigit) : Int)
        else (digitsVal (r3.takeWhile Char.isDigit) : Int)
      | [] => 0
    | [] => 0
  let mant : Rat := sgnTail.1 * ((digitsVal ip : Rat) + (digitsVal fp : Rat) / ((10 : Rat) ^ fp.length))
  if 0 ≤ e then mant * (10 : Rat) ^ e.toNat else mant / (10 : Rat) ^ (-e).toNat

/-- Raw cell of the WHO `Value` column: NaN, an already-numeric cell, or
free text. -/
abbrev ValueCell := Option (Rat ⊕ String)

/-- Model of `_coerce_num` (nodes_clean.py lines 15-24): NaN stays NaN, a
numeric cell converts directly, text is searched for its leading numeric
token. -/
def coerceNum : ValueCell → Option Rat
  | none => none
  | some (Sum.inl q) => some q
  | some (Sum.inr s) => (searchNum s.data).map tokenToRat

/-! ### `_to_int` and `_safe_str` (nodes_clean.py lines 8-31) -/

/-- Raw cell of the WHO `TimeDim` column: NaN, an integer, or text. -/
inductive YearCell where
  | ynull : YearCell
  | yint (n : Int) : YearCell
  | ystr (s : String) : YearCell
deriving DecidableEq

/-- Strip leading and trailing whitespace from a character list (structural
model of `str.strip`). -/
def trimChars (cs : List Char) : List Char :=
  ((cs.dropWhile Char.isWhitespace).reverse.dropWhile Char.isWhitespace).reverse

/-- Python `int(s)` on a string: optional surrounding whitespace, optional
sign, one or more digits; anything else raises (here: `none`). -/
def parseIntStr (s : String) : Option Int :=
  let cs := trimChars s.data
  let signTail : Int × List Char :=
    match cs with
    | c :: r => if c = '-' then (-1, r) else if c = '+' then (1, r) else (1, c :: r)
    | [] => (1, [])
  if signTail.2.isEmpty then none
  else if signTail.2.all Char.isDigit then some (signTail.1 * (digitsVal signTail.2 : Int))
  else none

/-- Model of `_to_int` (nodes_clean.py lines 27-31): `int(x)` with any
exception mapped to NaN (`none`).  `int` of a NaN float raises. -/
def toIntCell : YearCell → Option Int
  | YearCell.ynull => none
  | YearCell.yint n => some n
  | YearCell.ystr s => parseIntStr s

/-- Model of `_safe_str` followed by `.str.strip()` (nodes_clean.py lines
8-12 and 101): a NaN cell stringifies to `"nan"`, text is whitespace
trimmed. -/
def strClean : Option String → String
  | none => "nan"
  | some s => String.mk (trimChars s.data)

/-! ### The Cleaner — `clean_who_data` (nodes_clean.py lines 38-149)

The raw record is taken after the column reconciliation of lines 44-103
(strip column names, merge the `IndicatorCode`/`indicator_code` variants,
project the `important` columns, rename to canonical names).  The claims
all concern the row-level logic from line 99 on, which is embedded here
field for field.
-/

/-- Raw record after column reconciliation and renaming.  `none` models a
NaN cell throughout; timestamps are abstracted to integers. -/
structure RawRow where
  id : Option String
  indicator_code : Option String
  spatialDim : Option String
  parentLocationCode : Option String
  parentLocation : Option String
  timeDim : YearCell
  dim1 : Option String
  valueText : ValueCell
  numericValue : Option Rat
  low : Option Rat
  high : Option Rat
  dateReported : Option Int
deriving DecidableEq

/-- Cleaned record in the `expected_cols` schema of nodes_clean.py lines
139-144.  `value` is total because rows with an unresolvable value are
dropped before this record is formed; `year` stays optional because no
filter removes an unparsable year. -/
structure CleanRow where
  id : Option String
  indicator_code : String
  region_code : String
  region : String
  country_iso3 : String
  year : Option Int
  sex : String
  value : Rat
  low : Option Rat
  high : Option Rat
  date_reported : Option Int
deriving DecidableEq

/-- Line 114: `df["value_numeric"].notna().any()` — whether any record of
the batch carries a non-null numeric value. -/
def batchHasNumeric (rows : List RawRow) : Bool :=
  rows.any (fun r => r.numericValue.isSome)

/-- Lines 114-117: the cleaned value of one record.  The branch is decided
once per batch: when any record has a numeric value the whole batch reads
the numeric column, otherwise the whole batch parses the text column. -/
def chooseVal (rows : List RawRow) (r : RawRow) : Option Rat :=
  if batchHasNumeric rows then r.numericValue else coerceNum r.valueText

/-- The cleaned record built from a surviving raw record (lines 99-144). -/
def mkClean (r : RawRow) (v : Rat) : CleanRow :=
  { id := r.id
    indicator_code := strClean r.indicator_code
    region_code := strClean r.parentLocationCode
    region := strClean r.parentLocation
    country_iso3 := strClean r.spatialDim
    year := toIntCell r.timeDim
    sex := strClean r.dim1
    value := v
    low := r.low
    high := r.high
    date_reported := r.dateReported }

/-- Row-level cleaning with the filters of lines 130-134: 3-character
country code, non-empty indicator code, resolvable value.  `none` means
the record is dropped. -/
def cleanRowOf (rows : List RawRow) (r : RawRow) : Option CleanRow :=
  match chooseVal rows r with
  | none => none
  | some v =>
    if (strClean r.spatialDim).length = 3 ∧ strClean r.indicator_code ≠ "" then
      some (mkClean r v)
    else none

/-- Helper for `dedupFirst`: `seen` holds the values already emitted. -/
def dedupFirstAux {α : Type} [DecidableEq α] (seen : List α) : List α → List α
  | [] => []
  | x :: xs =>
    if x ∈ seen then dedupFirstAux seen xs
    else x :: dedupFirstAux (x :: seen) xs

/-- `drop_duplicates()` (line 146): keep the first occurrence of each fully
identical row. -/
def dedupFirst {α : Type} [DecidableEq α] (l : List α) : List α :=
  dedupFirstAux [] l

/-- Model of `clean_who_data` (nodes_clean.py lines 38-149): per-row
coercion and filtering, then full-row deduplication. -/
def cleanWhoData (rows : List RawRow) : List CleanRow :=
  dedupFirst (rows.filterMap (cleanRowOf rows))

/-! #### Deduplication lemmas -/

theorem mem_dedupFirstAux {α : Type} [DecidableEq α] {a : α} :
    ∀ (l seen : List α), a ∈ dedupFirstAux seen l ↔ a ∈ l ∧ a ∉ seen := by
  intro l
  induction l with
  | nil => intro seen; simp [dedupFirstAux]
  | cons x xs ih =>
    intro seen
    by_cases hx : x ∈ seen
    · simp only [dedupFirstAux, if_pos hx, ih, List.mem_cons]
      constructor
      · rintro ⟨h1, h2⟩; exact ⟨Or.inr h1, h2⟩
      · rintro ⟨h1 | h1, h2⟩
        · exact absurd (h1 ▸ hx) h2
        · exact ⟨h1, h2⟩
    · simp only [dedupFirstAux, if_neg hx, List.mem_cons, ih]
      constructor
      · rintro (rfl | ⟨h1, h2⟩)
        · exact ⟨Or.inl rfl, hx⟩
        · exact ⟨Or.inr h1, fun hs => h2 (Or.inr hs)⟩
      · rintro ⟨rfl | h1, h2⟩
        · exact Or.inl rfl
        · by_cases hax : a = x
          · exact Or.inl hax
          · exact Or.inr ⟨h1, fun hs => hs.elim hax h2⟩

theorem mem_dedupFirst {α : Type} [DecidableEq α] {a : α} (l : List α) :
    a ∈ dedupFirst l ↔ a ∈ l := by
  unfold dedupFirst
  rw [mem_dedupFirstAux]
  simp

theorem dedupFirstAux_nodup {α : Type} [DecidableEq α] :
    ∀ (l seen : List α), (dedupFirstAux seen l).Nodup := by
  intro l
  induction l with
  | nil => intro seen; simp [dedupFirstAux]
  | cons x xs ih =>
    intro seen
    by_cases hx : x ∈ seen
    · simpa [dedupFirstAux, if_pos hx] using ih seen
    · rw [dedupFirstAux, if_neg hx]
      refine List.nodup_cons.mpr ⟨?_, ih _⟩
      intro hmem
      exact ((mem_dedupFirstAux _ _).mp hmem).2 (List.mem_cons_self _ _)

theorem dedupFirst_nodup {α : Type} [DecidableEq α] (l : List α) :
    (dedupFirst l).Nodup :=
  dedupFirstAux_nodup l []

/-! ### The Feature Engine — `engineer_features` (nodes_features.py lines 20-81)

Pandas specifics embedded here: a groupby transform evaluates the group
function on each group's values in row order and aligns the result back to
the rows, so each row receives the value at its own position within its
group; `sort_values` with a NaN year places that row last within its keys
(`na_position` defaults to `last`); grouping by `["indicator_code",
"year"]` silently excludes rows whose year is NaN, which therefore receive
a NaN `value_z_year`.  `sort_values` is modelled with a stable sort.
-/

/-- NaN-propagating subtraction on float cells. -/
def osub : Option Rat → Option Rat → Option Rat
  | some a, some b => some (a - b)
  | _, _ => none

/-- NaN-propagating multiplication on float cells. -/
def omul : Option Rat → Option Rat → Option Rat
  | some a, some b => some (a * b)
  | _, _ => none

/-- NaN-propagating division on float cells (only applied after
`replace0`, so a zero divisor never occurs). -/
def odiv : Option Rat → Option Rat → Option Rat
  | some a, some b => some (a / b)
  | _, _ => none

/-- `.replace(0, np.nan)` on a float cell (nodes_features.py line 61). -/
def replace0 : Option Rat → Option Rat
  | some a => if a = 0 then none else some a
  | none => none

/-- The `CONTINENT_MAP` lookup table (nodes_features.py lines 4-18). -/
def continentPairs : List (String × String) :=
  [("AFR", "Africa"), ("AMR", "Americas"), ("EMR", "Eastern Mediterranean"),
   ("EUR", "Europe"), ("SEAR", "South-East Asia"), ("WPR", "Western Pacific"),
   ("AFRO", "Africa"), ("AMRO", "Americas"), ("EMRO", "Eastern Mediterranean"),
   ("EURO", "Europe"), ("SEARO", "South-East Asia"), ("WPRO", "Western Pacific")]

/-- Line 33: `region_code` mapped through `CONTINENT_MAP`, falling back to
the raw region string when the code is unknown. -/
def continentOf (regionCode : String) (region : String) : String :=
  (continentPairs.lookup regionCode).getD region

/-- Mean of a list of rationals (used by the rolling mean, which the code
computes exactly on the window). -/
def ratMean (l : List Rat) : Rat :=
  l.sum / (l.length : Rat)

/-- Rolling mean with window 3 and `min_periods=1` evaluated at position
`p` of a group series (nodes_features.py lines 42-45): the mean of the at
most three values ending at `p`. -/
def rollMean3 (seq : List Rat) (p : Nat) : Rat :=
  ratMean ((seq.take (p + 1)).drop (p + 1 - 3))

/-- Mean of a group's values as a real number. -/
noncomputable def meanR (l : List Rat) : Real :=
  (l.map (fun q => (q : Real))).sum / (l.length : Real)

/-- Population standard deviation (`std(ddof=0)`) of a group's values. -/
noncomputable def stdPopR (l : List Rat) : Real :=
  Real.sqrt ((l.map (fun q => ((q : Real) - meanR l) ^ 2)).sum / (l.length : Real))

/-- The `1e-9` guard added to denominators in the z-scores. -/
noncomputable def zEps : Real := 1 / 1000000000

/-- The `1e-9` guard added to the confidence-interval width. -/
def qEps : Rat := 1 / 1000000000

/-- Pair every element with its position inside its key-group, scanning
left to right; `seen` is the already-scanned prefix.  This is how a pandas
groupby aligns per-group results back to rows. -/
def wgpAux {α K : Type} [DecidableEq K] (key : α → K) (seen : List α) :
    List α → List (α × Nat)
  | [] => []
  | x :: xs =>
    (x, (seen.filter (fun y => key y = key x)).length) :: wgpAux key (seen ++ [x]) xs

/-- Each row paired with its position within its key-group. -/
def withGroupPos {α K : Type} [DecidableEq K] (key : α → K) (l : List α) :
    List (α × Nat) :=
  wgpAux key [] l

/-- Engineered record: the cleaned fields that survive the final column
selection (nodes_features.py lines 72-78) plus the derived columns.
`value_z_year` is optional because rows with a NaN year are excluded from
the `["indicator_code", "year"]` groupby and receive NaN. -/
structure FeatRow where
  id : Option String
  indicator_code : String
  country_iso3 : String
  continent : String
  region_code : String
  region : String
  year : Option Int
  sex : String
  value : Rat
  low : Option Rat
  high : Option Rat
  date : Option Int
  value_roll3 : Rat
  value_z_global : Real
  value_z_year : Option Real
  value_pct_change : Option Rat
  ci_width : Option Rat
  quality_score : Option Rat

/-- Group key of the rolling/shift statistics: `grp = ["indicator_code",
"country_iso3"]` (nodes_features.py line 36). -/
def grpKey (r : CleanRow) : String × String :=
  (r.indicator_code, r.country_iso3)

/-- Values of the `indicator_code`+`country_iso3` group of `r` inside the
sorted frame `s`, in row order. -/
def grpSeq (s : List CleanRow) (r : CleanRow) : List Rat :=
  (s.filter (fun x => grpKey x = grpKey r)).map (fun x => x.value)

/-- One engineered row: `r` at position `p` of its group within the sorted
frame `s` (nodes_features.py lines 28-78). -/
noncomputable def mkFeat (s : List CleanRow) (r : CleanRow) (p : Nat) : FeatRow :=
  let seq := grpSeq s r
  let gInd := (s.filter (fun x => x.indicator_code = r.indicator_code)).map (fun x => x.value)
  let gIndYear :=
    (s.filter (fun x => x.indicator_code = r.indicator_code ∧ x.year = r.year)).map
      (fun x => x.value)
  let prev : Option Rat := if p = 0 then none else some (seq.getD (p - 1) 0)
  let ciw : Option Rat :=
    match r.low, r.high with
    | some lo, some hi => some (hi - lo)
    | _, _ => none
  { id := r.id
    indicator_code := r.indicator_code
    country_iso3 := r.country_iso3
    continent := continentOf r.region_code r.region
    region_code := r.region_code
    region := r.region
    year := r.year
    sex := r.sex
    value := r.value
    low := r.low
    high := r.high
    date := r.year
    value_roll3 := rollMean3 seq p
    value_z_global := ((r.value : Real) - meanR gInd) / (stdPopR gInd + zEps)
    value_z_year :=
      match r.year with
      | none => none
      | some _ => some (((r.value : Real) - meanR gIndYear) / (stdPopR gIndYear + zEps))
    value_pct_change := omul (odiv (osub (some r.value) prev) (replace0 prev)) (some 100)
    ci_width := ciw
    quality_score := ciw.map (fun w => min (1 / (|w| + qEps)) 1000000)
  }

/-- Derived columns added to a sorted frame, row by row. -/
noncomputable def addDerived (s : List CleanRow) : List FeatRow :=
  (withGroupPos grpKey s).map (fun rp => mkFeat s rp.1 rp.2)

/-! #### The sort keys

`sort_values(["indicator_code", "country_iso3", "year"])` orders rows
lexicographically by the three keys, with a NaN year placed last
(`na_position` defaults to `last`).  The sort itself is modelled as a
stable sort.
-/

/-- Year ordering with NaN last. -/
def yearLeB : Option Int → Option Int → Bool
  | some a, some b => a ≤ b
  | some _, none => true
  | none, some _ => false
  | none, none => true

/-- Lexicographic ordering on (indicator_code, country_iso3, year). -/
def keyLeB (k1 k2 : String × String × Option Int) : Bool :=
  if k1.1 = k2.1 then
    (if k1.2.1 = k2.2.1 then yearLeB k1.2.2 k2.2.2 else decide (k1.2.1 < k2.2.1))
  else decide (k1.1 < k2.1)

/-- Sort key of a cleaned row (nodes_features.py line 39). -/
def ckey (r : CleanRow) : String × String × Option Int :=
  (r.indicator_code, r.country_iso3, r.year)

/-- Sort key of an engineered row (nodes_features.py line 79). -/
def fkey (r : FeatRow) : String × String × Option Int :=
  (r.indicator_code, r.country_iso3, r.year)

/-- Row ordering of the first `sort_values` (on cleaned rows). -/
def cleanLe (a b : CleanRow) : Prop := keyLeB (ckey a) (ckey b) = true

/-- Row ordering of the final `sort_values` (on engineered rows). -/
def featLe (a b : FeatRow) : Prop := keyLeB (fkey a) (fkey b) = true

instance : DecidableRel cleanLe := fun _ _ => instDecidableEqBool _ true

instance : DecidableRel featLe := fun _ _ => instDecidableEqBool _ true

theorem yearLeB_total (a b : Option Int) : yearLeB a b = true ∨ yearLeB b a = true := by
  cases a <;> cases b <;> simp [yearLeB] <;> omega

theorem yearLeB_trans {a b c : Option Int} (h1 : yearLeB a b = true)
    (h2 : yearLeB b c = true) : yearLeB a c = true := by
  cases a <;> cases b <;> cases c <;> simp_all [yearLeB] <;> omega

theorem keyLeB_total (k1 k2 : String × String × Option Int) :
    keyLeB k1 k2 = true ∨ keyLeB k2 k1 = true := by
  unfold keyLeB
  by_cases h1 : k1.1 = k2.1
  · rw [if_pos h1, if_pos h1.symm]
    by_cases h2 : k1.2.1 = k2.2.1
    · rw [if_pos h2, if_pos h2.symm]
      exact yearLeB_total _ _
    · rw [if_neg h2, if_neg (Ne.symm h2)]
      rcases lt_or_gt_of_ne h2 with h | h
      · exact Or.inl (by simpa using h)
      · exact Or.inr (by simpa using h)
  · rw [if_neg h1, if_neg (Ne.symm h1)]
    rcases lt_or_gt_of_ne h1 with h | h
    · exact Or.inl (by simpa using h)
    · exact Or.inr (by simpa using h)

theorem keyLeB_trans {k1 k2 k3 : String × String × Option Int}
    (h1 : keyLeB k1 k2 = true) (h2 : keyLeB k2 k3 = true) :
    keyLeB k1 k3 = true := by
  unfold keyLeB at h1 h2 ⊢
  by_cases e12 : k1.1 = k2.1 <;> by_cases e23 : k2.1 = k3.1
  · rw [if_pos e12] at h1; rw [if_pos e23] at h2
    rw [if_pos (e12.trans e23)]
    by_cases f12 : k1.2.1 = k2.2.1 <;> by_cases f23 : k2.2.1 = k3.2.1
    · rw [if_pos f12] at h1; rw [if_pos f23] at h2
      rw [if_pos (f12.trans f23)]
      exact yearLeB_trans h1 h2
    · rw [if_neg (f12 ▸ f23 : ¬k1.2.1 = k3.2.1)]
      rw [if_neg f23] at h2
      simpa [f12] using h2
    · rw [if_neg f12] at h1
      rw [if_neg (fun h => f12 (h.trans f23.symm))]
      simpa [f23] using h1
    · rw [if_neg f12] at h1; rw [if_neg f23] at h2
      have l1 : k1.2.1 < k2.2.1 := by simpa using h1
      have l2 : k2.2.1 < k3.2.1 := by simpa using h2
      rw [if_neg (ne_of_lt (l1.trans l2))]
      simpa using l1.trans l2
  · rw [if_neg (e12 ▸ e23 : ¬k1.1 = k3.1)]
    rw [if_neg e23] at h2
    simpa [e12] using h2
  · rw [if_neg e12] at h1
    rw [if_neg (fun h => e12 (h.trans e23.symm))]
    simpa [e23] using h1
  · rw [if_neg e12] at h1; rw [if_neg e23] at h2
    have l1 : k1.1 < k2.1 := by simpa using h1
    have l2 : k2.1 < k3.1 := by simpa using h2
    rw [if_neg (ne_of_lt (l1.trans l2))]
    simpa using l1.trans l2

instance : IsTotal CleanRow cleanLe := ⟨fun a b => keyLeB_total (ckey a) (ckey b)⟩

instance : IsTrans CleanRow cleanLe := ⟨fun _ _ _ => keyLeB_trans⟩

instance : IsTotal FeatRow featLe := ⟨fun a b => keyLeB_total (fkey a) (fkey b)⟩

instance : IsTrans FeatRow featLe := ⟨fun _ _ _ => keyLeB_trans⟩

/-- Model of `engineer_features` (nodes_features.py lines 20-81): sort by
(indicator_code, country_iso3, year), derive the per-group and
cross-sectional columns, select the output columns, and sort by the same
keys again. -/
noncomputable def engineerFeatures (rows : List CleanRow) : List FeatRow :=
  List.insertionSort featLe (addDerived (List.insertionSort cleanLe rows))

/-! ### The Splitter — `split_by_year` (nodes_clean.py lines 156-171)

`split_by_year` first writes `df["year"] = df["year"].astype(int)` into its
input frame.  On the integer-valued years the Feature Engine produces this
write is value-preserving; on a NaN year `astype(int)` raises, modelled as
`none`.  The function is embedded in state-passing style: the first
component of the result is the input frame as it stands after the call.
-/

/-- Model of `split_by_year`: `none` when the integer cast raises (a NaN
year); otherwise the post-call input frame, the `year <= 2017` training
rows and the `2018 <= year <= 2022` test rows. -/
def splitByYear (df : List FeatRow) :
    Option (List FeatRow × List FeatRow × List FeatRow) :=
  if df.all (fun r => r.year.isSome) then
    let df2 := df.map (fun r => { r with year := r.year.map (fun n => n) })
    some (df2,
      df2.filter (fun r => r.year.getD 0 ≤ 2017),
      df2.filter (fun r => 2018 ≤ r.year.getD 0 ∧ r.year.getD 0 ≤ 2022))
  else none

/-! ### Feature matrices and the schema contract (nodes_model.py)

A feature matrix is a dataframe with named columns; `reindexCols` is
`X.reindex(columns=model_columns, fill_value=0)` as used by the Evaluator
(line 98) and the Forecaster (line 156): target columns in target order,
existing columns keep their values, absent columns fill with zero.
-/

/-- A feature matrix: column names plus one value list per row, aligned
with the column list. -/
structure DF (α : Type) where
  cols : List String
  rows : List (List α)

/-- Value of the column named `t` in one row: the entry at the first
matching column name, or the fill value 0 when the column is absent. -/
def rowLookup {α : Type} [Zero α] : List String → List α → String → α
  | [], _, _ => 0
  | _ :: _, [], _ => 0
  | c :: cs, x :: xs, t => if c = t then x else rowLookup cs xs t

/-- `X.reindex(columns=target, fill_value=0)`. -/
def reindexCols {α : Type} [Zero α] (df : DF α) (target : List String) : DF α :=
  ⟨target, df.rows.map (fun row => target.map (fun c => rowLookup df.cols row c))⟩

/-- Column alignment as performed by `evaluate_model` (nodes_model.py line
98): `X_test.reindex(columns=model_columns, fill_value=0)`. -/
def evalAlign {α : Type} [Zero α] (x : DF α) (modelColumns : List String) : DF α :=
  reindexCols x modelColumns

/-- Column alignment as performed by `predict_future` (nodes_model.py line
156): `X_future.reindex(columns=model_columns, fill_value=0)`. -/
def forecastAlign {α : Type} [Zero α] (x : DF α) (modelColumns : List String) : DF α :=
  reindexCols x modelColumns

/-- Name of a one-hot column: `pd.get_dummies` joins the source column
name and the category value with `_`. -/
def dummyName (pre : String) (v : String) : String :=
  pre ++ "_" ++ v

/-- Distinct observed values of a categorical column, in sorted order, as
`pd.get_dummies` enumerates them. -/
def sortedCats (vals : List String) : List String :=
  List.insertionSort (fun a b : String => a ≤ b) (dedupFirst vals)

/-- `pd.get_dummies` on one categorical column: one indicator column per
observed distinct value (`drop_first=False`). -/
def getDummies {α : Type} [Zero α] [One α] (pre : String) (vals : List String) : DF α :=
  let cats := sortedCats vals
  ⟨cats.map (dummyName pre), vals.map (fun v => cats.map (fun c => if c = v then (1 : α) else 0))⟩

/-- The fixed numeric feature list `FEATURES` (nodes_model.py lines 14-22). -/
def featuresCols : List String :=
  ["year", "value_roll3", "value_z_global", "value_z_year",
   "value_pct_change", "ci_width", "quality_score"]

/-- NaN-filling cast of an optional rational cell (`fillna(0.0)` on the
assembled matrix, nodes_model.py line 49). -/
noncomputable def oRatToR : Option Rat → Real
  | some q => (q : Real)
  | none => 0

/-- NaN-filling cast of an optional real cell. -/
noncomputable def oRealToR : Option Real → Real
  | some v => v
  | none => 0

/-- NaN-filling cast of the year cell. -/
noncomputable def yearToR : Option Int → Real
  | some n => (n : Real)
  | none => 0

/-- The numeric block of `_prep_xy` for one row, in `FEATURES` order, with
NaN entries filled with 0.0. -/
noncomputable def numVec (r : FeatRow) : List Real :=
  [yearToR r.year, (r.value_roll3 : Real), r.value_z_global, oRealToR r.value_z_year,
   oRatToR r.value_pct_change, oRatToR r.ci_width, oRatToR r.quality_score]

/-- Model of `_prep_xy`'s feature matrix (nodes_model.py lines 36-51):
numeric block from `FEATURES`, then one-hot blocks for the `CAT_COLS`
(`indicator_code`, `continent`, `country_iso3`, `sex`), NaNs filled
with 0.0. -/
noncomputable def prepX (rows : List FeatRow) : DF Real :=
  let dIC : DF Real := getDummies ("indicator_code") (rows.map (fun r => r.indicator_code))
  let dCon : DF Real := getDummies ("continent") (rows.map (fun r => r.continent))
  let dCty : DF Real := getDummies ("country_iso3") (rows.map (fun r => r.country_iso3))
  let dSex : DF Real := getDummies ("sex") (rows.map (fun r => r.sex))
  { cols := featuresCols ++ dIC.cols ++ dCon.cols ++ dCty.cols ++ dSex.cols
    rows := List.zipWith (fun a b => a ++ b) (rows.map numVec)
      (List.zipWith (fun a b => a ++ b) dIC.rows
        (List.zipWith (fun a b => a ++ b) dCon.rows
          (List.zipWith (fun a b => a ++ b) dCty.rows dSex.rows))) }

/-! ### The Forecaster — `predict_future` (nodes_model.py lines 138-171) -/

/-- Lines 145-148: one copy of the row with the year overwritten. -/
def setYear (y : Int) (r : FeatRow) : FeatRow :=
  { r with year := some y }

/-- Lines 144-150: every future row replicated once per forecast year, the
2023 block first, then 2024, then 2025 (`pd.concat` of the three copies). -/
def futureExpand (rows : List FeatRow) : List FeatRow :=
  rows.map (setYear 2023) ++ rows.map (setYear 2024) ++ rows.map (setYear 2025)

/-- Mean of a list of reals. -/
noncomputable def listMeanR (l : List Real) : Real :=
  l.sum / (l.length : Real)

/-- `np.std` (population standard deviation) of a list of reals. -/
noncomputable def stdDevR (l : List Real) : Real :=
  Real.sqrt ((l.map (fun v => (v - listMeanR l) ^ 2)).sum / (l.length : Real))

/-- One forecast output row: the expanded feature row with the prediction
columns appended (nodes_model.py lines 165-167). -/
structure ForecastRow where
  base : FeatRow
  predicted_value : Real
  prediction_std : Real
  prediction_confidence : Real

/-- Model of `predict_future` (nodes_model.py lines 138-171).  The trained
ensemble is a list of fitted trees, each mapping an aligned feature vector
to its prediction; the forest prediction is their mean, `prediction_std`
the standard deviation of the per-tree predictions, and
`prediction_confidence` is `1 / (1 + prediction_std)`. -/
noncomputable def predictFuture (trees : List (List Real → Real))
    (modelColumns : List String) (futureRows : List FeatRow) : List ForecastRow :=
  List.zipWith
    (fun r xr =>
      { base := r
        predicted_value := listMeanR (trees.map (fun t => t xr))
        prediction_std := stdDevR (trees.map (fun t => t xr))
        prediction_confidence := 1 / (1 + stdDevR (trees.map (fun t => t xr))) })
    (futureExpand futureRows)
    (forecastAlign (prepX (futureExpand futureRows)) modelColumns).rows

/-! ## Claims about the Cleaner -/

/-- Membership in the Cleaner's output: exactly the cleaned forms of the
raw records that pass the row filters. -/
theorem mem_cleanWhoData {c : CleanRow} (rows : List RawRow) :
    c ∈ cleanWhoData rows ↔ ∃ r ∈ rows, cleanRowOf rows r = some c := by
  unfold cleanWhoData
  rw [mem_dedupFirst, List.mem_filterMap]

/-- The 5-field key of the spec's deduplication invariant. -/
def key5 (c : CleanRow) : String × String × Option Int × String × String :=
  (c.indicator_code, c.country_iso3, c.year, c.sex, c.region_code)

/-- Raw record used by several concrete checks: USA 2015, male, numeric
value 5. -/
def rawA : RawRow :=
  { id := some ("1"), indicator_code := some ("WHOSIS_000001"),
    spatialDim := some ("USA"), parentLocationCode := some ("AMR"),
    parentLocation := some ("Americas"), timeDim := YearCell.yint 2015,
    dim1 := some ("MLE"), valueText := none, numericValue := some 5,
    low := none, high := none, dateReported := none }

/-- Same 5-field key as `rawA` (indicator, country, year, sex, region) but
a different value and id. -/
def rawB : RawRow :=
  { rawA with
    id := some ("2")
    numericValue := some 7 }

/-- Raw record whose year is the unparsable string `"unknown"`. -/
def rawBadYear : RawRow :=
  { rawA with
    id := some ("3")
    timeDim := YearCell.ystr ("unknown")
    numericValue := some 9 }

/-- Raw record with no numeric value but a parsable free-text value, and a
different sex than `rawA`. -/
def rawTextOnly : RawRow :=
  { rawA with
    id := some ("4")
    dim1 := some ("FMLE")
    numericValue := none
    valueText := some (Sum.inr ("78.1 [78.1-78.2]")) }

unseal Rat.inv Rat.mul Rat.add Rat.sub in
/-- The worked example of the spec: the leading numeric token of
`"78.1 [78.1-78.2]"` is `78.1`. -/
theorem coerceNum_interval_example :
    coerceNum (some (Sum.inr ("78.1 [78.1-78.2]"))) = some (781 / 10) := by
  decide

/-- Shape of a successful row-level clean: the value resolves, the filters
pass, and the output is the cleaned record. -/
theorem cleanRowOf_eq_some {rows : List RawRow} {r : RawRow} {c : CleanRow} :
    cleanRowOf rows r = some c ↔
      ∃ v, chooseVal rows r = some v ∧
        ((strClean r.spatialDim).length = 3 ∧ strClean r.indicator_code ≠ "") ∧
        c = mkClean r v := by
  unfold cleanRowOf
  cases hv : chooseVal rows r with
  | none => simp
  | some v =>
    by_cases hf : (strClean r.spatialDim).length = 3 ∧ strClean r.indicator_code ≠ ""
    · simp only [if_pos hf, Option.some.injEq]
      constructor
      · intro h; exact ⟨v, rfl, hf, h.symm⟩
      · rintro ⟨v2, hv2, _, rfl⟩
        rw [hv2]
    · simp only [if_neg hf]
      constructor
      · intro h; exact absurd h (by simp)
      · rintro ⟨v2, _, hf2, _⟩
        exact absurd hf2 hf

unseal Rat.inv Rat.mul Rat.add Rat.sub in
/-- C2 counterexample: two raw records agreeing on the 5-field key
(indicator_code, country_iso3, year, sex, region_code) but with different
values both survive cleaning — `drop_duplicates()` compares entire rows,
so the output has two rows with the same 5-field key. -/
theorem c2_counterexample :
    (cleanWhoData [rawA, rawB]).map key5 =
      [("WHOSIS_000001", "USA", some 2015, "MLE", "AMR"),
       ("WHOSIS_000001", "USA", some 2015, "MLE", "AMR")] ∧
    (cleanWhoData [rawA, rawB]).map (fun c => c.value) = [5, 7] := by
  constructor
  · decide
  · decide

/-- C2 (amended): deduplication is by the entire cleaned row, not by the
5-field key: the Cleaner's output contains exactly one row per unique
cleaned-row value — it never contains two fully identical rows, and every
surviving raw record contributes its cleaned row. -/
theorem c2_theorem (rows : List RawRow) :
    (cleanWhoData rows).Nodup ∧
    ∀ c : CleanRow, c ∈ cleanWhoData rows ↔ ∃ r ∈ rows, cleanRowOf rows r = some c :=
  ⟨dedupFirst_nodup _, fun _ => mem_cleanWhoData rows⟩

unseal Rat.inv Rat.mul Rat.add Rat.sub in
/-- C3 counterexample: a record whose year does not parse as an integer is
kept by the Cleaner with an undefined year — the output of
`clean_who_data` contains a row with a missing year. -/
theorem c3_counterexample :
    (cleanWhoData [rawBadYear]).length = 1 ∧
    (cleanWhoData [rawBadYear]).map (fun c => c.year) = [none] := by
  constructor
  · decide
  · decide

/-- C3 (amended): an unparsable year does not drop the record.  A raw
record passing the country-code, indicator-code and value filters always
contributes a cleaned row, whose year field is `_to_int` of the raw year
(possibly undefined); the Cleaner never filters on year. -/
theorem c3_theorem (rows : List RawRow) (r : RawRow) (v : Rat)
    (hmem : r ∈ rows)
    (hiso : (strClean r.spatialDim).length = 3)
    (hind : strClean r.indicator_code ≠ "")
    (hval : chooseVal rows r = some v) :
    mkClean r v ∈ cleanWhoData rows ∧ (mkClean r v).year = toIntCell r.timeDim := by
  refine ⟨(mem_cleanWhoData rows).mpr ⟨r, hmem, ?_⟩, rfl⟩
  exact cleanRowOf_eq_some.mpr ⟨v, hval, ⟨hiso, hind⟩, rfl⟩

unseal Rat.inv Rat.mul Rat.add Rat.sub in
/-- Witness for `c3_theorem`: the unparsable-year record `rawBadYear`
passes the other filters and its cleaned row is in the output. -/
theorem c3_witness :
    (rawBadYear ∈ [rawBadYear] ∧
      (strClean rawBadYear.spatialDim).length = 3 ∧
      strClean rawBadYear.indicator_code ≠ "" ∧
      chooseVal [rawBadYear] rawBadYear = some 9) ∧
    (mkClean rawBadYear 9 ∈ cleanWhoData [rawBadYear] ∧
      (mkClean rawBadYear 9).year = toIntCell rawBadYear.timeDim) :=
  ⟨⟨by decide, by decide, by decide, by decide⟩,
    c3_theorem [rawBadYear] rawBadYear 9 (by decide) (by decide) (by decide) (by decide)⟩

unseal Rat.inv Rat.mul Rat.add Rat.sub in
/-- C4 counterexample: the numeric-versus-text choice is made per batch,
not per record.  In a batch where some record has a non-null numeric
value, a record with a null numeric value is dropped even though its
free-text value parses to `78.1` — the claim would keep it with value
`78.1`. -/
theorem c4_counterexample :
    (cleanWhoData [rawA, rawTextOnly]).map (fun c => (c.sex, c.value)) = [("MLE", 5)] ∧
    coerceNum rawTextOnly.valueText = some (781 / 10) := by
  constructor
  · decide
  · decide

/-- C4 (amended): the value source is selected once per batch.  When any
record of the batch has a non-null numeric value, every cleaned value is
its record's numeric field (records with a null numeric field are
dropped); only when no record has a numeric value does the Cleaner parse
each record's free-text value, extracting its leading numeric token, as in
`"78.1 [78.1-78.2]"` to `78.1`.  Records yielding no number are dropped. -/
theorem c4_theorem (rows : List RawRow) (c : CleanRow) (hc : c ∈ cleanWhoData rows) :
    (if batchHasNumeric rows then ∃ r ∈ rows, r.numericValue = some c.value
     else ∃ r ∈ rows, coerceNum r.valueText = some c.value) ∧
    coerceNum (some (Sum.inr ("78.1 [78.1-78.2]"))) = some (781 / 10) := by
  refine ⟨?_, coerceNum_interval_example⟩
  obtain ⟨r, hr, hro⟩ := (mem_cleanWhoData rows).mp hc
  obtain ⟨v, hv, _, hcv⟩ := cleanRowOf_eq_some.mp hro
  have hval : c.value = v := by subst hcv; rfl
  unfold chooseVal at hv
  by_cases hb : batchHasNumeric rows
  · rw [if_pos hb]
    rw [if_pos hb] at hv
    exact ⟨r, hr, hval ▸ hv⟩
  · rw [if_neg hb]
    rw [if_neg hb] at hv
    exact ⟨r, hr, hval ▸ hv⟩

unseal Rat.inv Rat.mul Rat.add Rat.sub in
/-- Witness for `c4_theorem`: the surviving row of the mixed batch. -/
theorem c4_witness :
    (mkClean rawA 5 ∈ cleanWhoData [rawA, rawTextOnly]) ∧
    ((if batchHasNumeric [rawA, rawTextOnly] then
        ∃ r ∈ [rawA, rawTextOnly], r.numericValue = some (mkClean rawA 5).value
      else ∃ r ∈ [rawA, rawTextOnly], coerceNum r.valueText = some (mkClean rawA 5).value) ∧
      coerceNum (some (Sum.inr ("78.1 [78.1-78.2]"))) = some (781 / 10)) :=
  ⟨by decide, c4_theorem [rawA, rawTextOnly] (mkClean rawA 5) (by decide)⟩

/-! ## Claims about the Splitter -/

/-- The in-place `astype(int)` write of `split_by_year` is value-preserving
on integer years. -/
theorem setYearMapId (r : FeatRow) : { r with year := r.year.map (fun n => n) } = r := by
  have h : r.year.map (fun n => n) = r.year := by cases r.year <;> rfl
  rw [h]

/-- The per-list form of `setYearMapId`. -/
theorem mapSetYearId (df : List FeatRow) :
    df.map (fun r => { r with year := r.year.map (fun n => n) }) = df := by
  induction df with
  | nil => rfl
  | cons x xs ih => simp only [List.map_cons, setYearMapId, List.map_id']

/-- Unfolding of a successful `split_by_year` call. -/
theorem splitByYear_some {df df2 tr te : List FeatRow}
    (h : splitByYear df = some (df2, tr, te)) :
    df2 = df ∧
    tr = df.filter (fun r => r.year.getD 0 ≤ 2017) ∧
    te = df.filter (fun r => 2018 ≤ r.year.getD 0 ∧ r.year.getD 0 ≤ 2022) := by
  unfold splitByYear at h
  split at h
  · simp only [mapSetYearId, Option.some.injEq, Prod.mk.injEq] at h
    exact ⟨h.1.symm, h.2.1.symm, h.2.2.symm⟩
  · exact absurd h (by simp)

/-- C8: the Splitter partitions chronologically.  On a batch where the
call succeeds, the training output is exactly the `year <= 2017` rows and
the test output exactly the `2018 <= year <= 2022` rows, in input order
(plain filters); a row is in the training output iff its year is at most
2017, in the test output iff its year lies in 2018..2022, never in both,
and a row with year 2026 is in neither. -/
theorem c8_theorem (df df2 tr te : List FeatRow)
    (h : splitByYear df = some (df2, tr, te)) :
    tr = df.filter (fun r => r.year.getD 0 ≤ 2017) ∧
    te = df.filter (fun r => 2018 ≤ r.year.getD 0 ∧ r.year.getD 0 ≤ 2022) ∧
    (∀ r : FeatRow, r ∈ tr ↔ r ∈ df ∧ r.year.getD 0 ≤ 2017) ∧
    (∀ r : FeatRow, r ∈ te ↔ r ∈ df ∧ (2018 ≤ r.year.getD 0 ∧ r.year.getD 0 ≤ 2022)) ∧
    (∀ r : FeatRow, r ∈ tr → r ∉ te) ∧
    (∀ r : FeatRow, r ∈ df → r.year = some 2026 → r ∉ tr ∧ r ∉ te) := by
  obtain ⟨-, htr, hte⟩ := splitByYear_some h
  subst htr; subst hte
  refine ⟨rfl, rfl, ?_, ?_, ?_, ?_⟩
  · intro r; simp [List.mem_filter]
  · intro r; simp [List.mem_filter]
  · intro r h1 h2
    rw [List.mem_filter] at h1 h2
    have p1 := of_decide_eq_true h1.2
    have p2 := of_decide_eq_true h2.2
    omega
  · intro r hr hy
    constructor
    · intro hmem
      have h2 := of_decide_eq_true (List.mem_filter.mp hmem).2
      rw [hy] at h2
      simp only [Option.getD_some] at h2
      omega
    · intro hmem
      have h2 := of_decide_eq_true (List.mem_filter.mp hmem).2
      rw [hy] at h2
      simp only [Option.getD_some] at h2
      omega

/-- C9: on a batch where the call succeeds, `split_by_year` leaves its
input unchanged — the frame as it stands after the call (including the
rewritten `year` column) equals the input frame, field for field. -/
theorem c9_theorem (df df2 tr te : List FeatRow)
    (h : splitByYear df = some (df2, tr, te)) : df2 = df :=
  (splitByYear_some h).1

/-- Feature row used by the split witnesses: year 2015. -/
noncomputable def fRow2015 : FeatRow :=
  { id := none, indicator_code := "A", country_iso3 := "USA",
    continent := "Americas", region_code := "AMR", region := "Americas",
    year := some 2015, sex := "", value := 1, low := none, high := none,
    date := some 2015, value_roll3 := 1, value_z_global := 0,
    value_z_year := none, value_pct_change := none, ci_width := none,
    quality_score := none }

/-- Witness for `c8_theorem`: the one-row batch with year 2015 splits into
itself and an empty test set. -/
theorem c8_witness :
    splitByYear [fRow2015] = some ([fRow2015], [fRow2015], []) ∧
    ([fRow2015] = List.filter (fun r => r.year.getD 0 ≤ 2017) [fRow2015] ∧
     ([] : List FeatRow) =
       List.filter (fun r => 2018 ≤ r.year.getD 0 ∧ r.year.getD 0 ≤ 2022) [fRow2015] ∧
     (∀ r : FeatRow, r ∈ [fRow2015] ↔ r ∈ [fRow2015] ∧ r.year.getD 0 ≤ 2017) ∧
     (∀ r : FeatRow, r ∈ ([] : List FeatRow) ↔
        r ∈ [fRow2015] ∧ (2018 ≤ r.year.getD 0 ∧ r.year.getD 0 ≤ 2022)) ∧
     (∀ r : FeatRow, r ∈ [fRow2015] → r ∉ ([] : List FeatRow)) ∧
     (∀ r : FeatRow, r ∈ [fRow2015] → r.year = some 2026 →
        r ∉ [fRow2015] ∧ r ∉ ([] : List FeatRow))) :=
  ⟨rfl, c8_theorem [fRow2015] [fRow2015] [fRow2015] [] rfl⟩

/-- Witness for `c9_theorem`: the post-call frame of the one-row batch is
the input. -/
theorem c9_witness :
    splitByYear [fRow2015] = some ([fRow2015], [fRow2015], []) ∧
    [fRow2015] = [fRow2015] :=
  ⟨rfl, c9_theorem [fRow2015] [fRow2015] [fRow2015] [] rfl⟩

/-! ## Claims about the schema-alignment contract -/

/-- Looking up every column of a row by its own name recovers the row
(first-match lookup over duplicate-free names). -/
theorem rowLookup_self {α : Type} [Zero α] :
    ∀ (cols : List String) (row : List α), cols.Nodup → row.length = cols.length →
      cols.map (rowLookup cols row) = row := by
  intro cols
  induction cols with
  | nil =>
    intro row _ hlen
    cases row
    · rfl
    · exact absurd hlen (by simp)
  | cons c cs ih =>
    intro row hnd hlen
    cases row with
    | nil => exact absurd hlen (by simp)
    | cons x xs =>
      have hnd2 := List.nodup_cons.mp hnd
      have hhead : rowLookup (c :: cs) (x :: xs) c = x := by
        simp [rowLookup]
      rw [List.map_cons, hhead]
      congr 1
      have hstep : ∀ t ∈ cs, rowLookup (c :: cs) (x :: xs) t = rowLookup cs xs t := by
        intro t ht
        have hne : c ≠ t := fun hct => hnd2.1 (hct ▸ ht)
        simp only [rowLookup, if_neg hne]
      rw [List.map_congr_left hstep]
      exact ih xs hnd2.2 (by simpa using hlen)

/-- A name absent from the column list looks up as the fill value 0. -/
theorem rowLookup_not_mem {α : Type} [Zero α] :
    ∀ (cols : List String) (row : List α) (t : String), t ∉ cols →
      rowLookup cols row t = 0 := by
  intro cols
  induction cols with
  | nil => intro row t _; cases row <;> rfl
  | cons c cs ih =>
    intro row t ht
    cases row with
    | nil => rfl
    | cons x xs =>
      have hne : c ≠ t := fun hct => ht (hct ▸ List.mem_cons_self c cs)
      simp only [rowLookup, if_neg hne]
      exact ih xs t (fun h2 => ht (List.mem_cons_of_mem c h2))

/-- One-hot column names with the same source-column name are injective in
the category value. -/
theorem dummyName_inj (pre : String) {a b : String}
    (h : dummyName pre a = dummyName pre b) : a = b := by
  unfold dummyName at h
  have hd := congrArg String.data h
  simp only [String.data_append] at hd
  have h2 := List.append_cancel_left hd
  cases a; cases b
  exact congrArg String.mk h2

/-- Looking up the one-hot column of a category `c` different from the
row's own value `v` yields 0, whether or not `c` is an observed
category. -/
theorem dummyRowLookup {α : Type} [Zero α] [One α] (pre : String) (v c : String)
    (hne : c ≠ v) :
    ∀ cs : List String,
      rowLookup (cs.map (dummyName pre)) (cs.map (fun x => if x = v then (1 : α) else 0))
        (dummyName pre c) = 0 := by
  intro cs
  induction cs with
  | nil => rfl
  | cons x xs ih =>
    simp only [List.map_cons, rowLookup]
    by_cases hx : dummyName pre x = dummyName pre c
    · rw [if_pos hx]
      have : x = c := dummyName_inj pre hx
      rw [if_neg (this ▸ hne)]
    · rw [if_neg hx]
      exact ih

/-- Rows of the one-hot frame: the indicator vector of each value. -/
theorem getDummies_rows {α : Type} [Zero α] [One α] (pre : String) (vals : List String)
    (i : Nat) (h : i < vals.length) :
    (getDummies pre vals : DF α).rows.getD i [] =
      (sortedCats vals).map (fun c => if c = vals.getD i "" then (1 : α) else 0) := by
  unfold getDummies
  have h2 : i < (vals.map (fun v => (sortedCats vals).map
      (fun c => if c = v then (1 : α) else 0))).length := by simpa using h
  rw [List.getD_eq_getElem _ _ h2, List.getElem_map, List.getD_eq_getElem _ _ h]

/-- C1: the schema-alignment contract.  Reindexing a well-formed matrix to
its own duplicate-free column list is a no-op; the reindexed matrix has
exactly the target columns in target order (dropping all others); a target
column absent from the matrix reads the fill value 0 in every row; a row
whose categorical value was never observed at training time reads 0 in
every training one-hot column of that categorical, so it one-hot encodes
as the all-zero vector over the training schema; and the Evaluator and the
Forecaster apply literally the same alignment. -/
theorem c1_theorem {α : Type} [Zero α] [One α] (df : DF α) (target : List String)
    (t : String) (row : List α) (pre : String) (trainVals futureVals : List String)
    (i : Nat) (c : String)
    (hwf : ∀ r ∈ df.rows, r.length = df.cols.length)
    (hnd : df.cols.Nodup)
    (hi : i < futureVals.length)
    (hc : c ∈ trainVals)
    (hunseen : futureVals.getD i "" ∉ trainVals) :
    reindexCols df df.cols = df ∧
    (reindexCols df target).cols = target ∧
    (t ∉ df.cols → rowLookup df.cols row t = (0 : α)) ∧
    rowLookup (getDummies pre futureVals : DF α).cols
      ((getDummies pre futureVals : DF α).rows.getD i []) (dummyName pre c) = 0 ∧
    (∀ (x : DF α) (mc : List String), evalAlign x mc = forecastAlign x mc) := by
  refine ⟨?_, rfl, fun ht => rowLookup_not_mem df.cols row t ht, ?_, fun _ _ => rfl⟩
  · unfold reindexCols
    cases df with
    | mk cols rows =>
      simp only [DF.mk.injEq, true_and]
      calc rows.map (fun r => cols.map (fun cn => rowLookup cols r cn))
          = rows.map (fun r => r) := by
            refine List.map_congr_left ?_
            intro r hr
            exact rowLookup_self cols r hnd (hwf r hr)
        _ = rows := List.map_id' rows
  · have hne : c ≠ futureVals.getD i "" := fun hcv => hunseen (hcv ▸ hc)
    rw [getDummies_rows pre futureVals i hi]
    exact dummyRowLookup pre (futureVals.getD i "") c hne (sortedCats futureVals)

/-- Witness for `c1_theorem`: a concrete rational matrix with columns
`a, b`, a target schema `b, z`, and a future categorical value `F` unseen
in the training values `M`. -/
theorem c1_witness :
    ((∀ r ∈ (⟨["a", "b"], [[1, 2]]⟩ : DF Rat).rows,
        r.length = (⟨["a", "b"], [[1, 2]]⟩ : DF Rat).cols.length) ∧
      (⟨["a", "b"], [[1, 2]]⟩ : DF Rat).cols.Nodup ∧
      0 < (["F"] : List String).length ∧
      "M" ∈ (["M"] : List String) ∧
      (["F"] : List String).getD 0 "" ∉ (["M"] : List String)) ∧
    (reindexCols (⟨["a", "b"], [[1, 2]]⟩ : DF Rat) (⟨["a", "b"], [[1, 2]]⟩ : DF Rat).cols =
        (⟨["a", "b"], [[1, 2]]⟩ : DF Rat) ∧
      (reindexCols (⟨["a", "b"], [[1, 2]]⟩ : DF Rat) ["b", "z"]).cols = ["b", "z"] ∧
      ("z" ∉ (⟨["a", "b"], [[1, 2]]⟩ : DF Rat).cols →
        rowLookup (⟨["a", "b"], [[1, 2]]⟩ : DF Rat).cols [1, 2] "z" = (0 : Rat)) ∧
      rowLookup (getDummies ("sex") ["F"] : DF Rat).cols
        ((getDummies ("sex") ["F"] : DF Rat).rows.getD 0 []) (dummyName ("sex") "M") = 0 ∧
      (∀ (x : DF Rat) (mc : List String), evalAlign x mc = forecastAlign x mc)) :=
  ⟨⟨by decide, by decide, by decide, by decide, by decide⟩,
    c1_theorem (⟨["a", "b"], [[1, 2]]⟩ : DF Rat) ["b", "z"] "z" [1, 2] ("sex")
      ["M"] ["F"] 0 "M" (by decide) (by decide) (by decide) (by decide) (by decide)⟩

/-! ## Claims about the Forecaster -/

/-- Default feature row for positional lookups. -/
noncomputable def dFeat : FeatRow := fRow2015

/-- Default forecast row for positional lookups. -/
noncomputable def dFore : ForecastRow :=
  { base := fRow2015, predicted_value := 0, prediction_std := 0,
    prediction_confidence := 0 }

theorem futureExpand_length (rows : List FeatRow) :
    (futureExpand rows).length = 3 * rows.length := by
  simp only [futureExpand, List.length_append, List.length_map]
  omega

theorem getDummies_rows_length {α : Type} [Zero α] [One α] (pre : String)
    (vals : List String) : (getDummies pre vals : DF α).rows.length = vals.length := by
  simp [getDummies]

theorem prepX_rows_length (rows : List FeatRow) :
    (prepX rows).rows.length = rows.length := by
  simp [prepX, List.length_zipWith, getDummies_rows_length]

theorem forecastAlign_rows_length (x : DF Real) (mc : List String) :
    (forecastAlign x mc).rows.length = x.rows.length := by
  simp [forecastAlign, reindexCols]

/-- `getD` through a `map` at an in-range index. -/
theorem getD_map_lt {α β : Type} (f : α → β) (l : List α) (i : Nat)
    (h : i < l.length) (d : α) (d2 : β) : (l.map f).getD i d2 = f (l.getD i d) := by
  rw [List.getD_eq_getElem _ _ (by simpa using h), List.getElem_map,
    List.getD_eq_getElem _ _ h]

/-- The three copies of input row `i` sit at positions `i`, `n + i` and
`2n + i` of the expanded frame, with years 2023, 2024 and 2025. -/
theorem futureExpand_getD (rows : List FeatRow) (i : Nat) (h : i < rows.length) :
    (futureExpand rows).getD i dFeat = setYear 2023 (rows.getD i dFeat) ∧
    (futureExpand rows).getD (rows.length + i) dFeat = setYear 2024 (rows.getD i dFeat) ∧
    (futureExpand rows).getD (2 * rows.length + i) dFeat = setYear 2025 (rows.getD i dFeat) := by
  unfold futureExpand
  refine ⟨?_, ?_, ?_⟩
  · rw [List.getD_append _ _ _ _ (by simp only [List.length_append, List.length_map]; omega),
      List.getD_append _ _ _ _ (by simp only [List.length_map]; omega)]
    exact getD_map_lt _ rows i h dFeat dFeat
  · rw [List.getD_append _ _ _ _ (by simp only [List.length_append, List.length_map]; omega),
      List.getD_append_right _ _ _ _ (by simp only [List.length_map]; omega)]
    have hidx : rows.length + i - (rows.map (setYear 2023)).length = i := by
      simp only [List.length_map]; omega
    rw [hidx]
    exact getD_map_lt _ rows i h dFeat dFeat
  · rw [List.getD_append_right _ _ _ _
      (by simp only [List.length_append, List.length_map]; omega)]
    have hidx : 2 * rows.length + i -
        (rows.map (setYear 2023) ++ rows.map (setYear 2024)).length = i := by
      simp only [List.length_append, List.length_map]; omega
    rw [hidx]
    exact getD_map_lt _ rows i h dFeat dFeat

theorem predictFuture_length (trees : List (List Real → Real)) (mc : List String)
    (rows : List FeatRow) : (predictFuture trees mc rows).length = 3 * rows.length := by
  unfold predictFuture
  rw [List.length_zipWith, forecastAlign_rows_length, prepX_rows_length, min_self,
    futureExpand_length]

/-- Every forecast output row is the corresponding expanded row with the
forest mean, the per-tree standard deviation and the derived confidence
appended, all evaluated on that row's aligned feature vector. -/
theorem predictFuture_fields (trees : List (List Real → Real)) (mc : List String)
    (rows : List FeatRow) (j : Nat) (h : j < (predictFuture trees mc rows).length) :
    ∃ xr : List Real,
      (predictFuture trees mc rows).getD j dFore =
        { base := (futureExpand rows).getD j dFeat
          predicted_value := listMeanR (trees.map (fun t => t xr))
          prediction_std := stdDevR (trees.map (fun t => t xr))
          prediction_confidence := 1 / (1 + stdDevR (trees.map (fun t => t xr))) } := by
  have hx : (forecastAlign (prepX (futureExpand rows)) mc).rows.length =
      (futureExpand rows).length := by
    rw [forecastAlign_rows_length, prepX_rows_length]
  have h1 : j < (futureExpand rows).length := by
    rw [predictFuture_length, ← futureExpand_length] at h
    exact h
  have h2 : j < (forecastAlign (prepX (futureExpand rows)) mc).rows.length := hx ▸ h1
  refine ⟨(forecastAlign (prepX (futureExpand rows)) mc).rows.getD j [], ?_⟩
  unfold predictFuture
  have hz : j < (List.zipWith
      (fun r xr =>
        ({ base := r
           predicted_value := listMeanR (trees.map (fun t => t xr))
           prediction_std := stdDevR (trees.map (fun t => t xr))
           prediction_confidence := 1 / (1 + stdDevR (trees.map (fun t => t xr))) }
          : ForecastRow))
      (futureExpand rows)
      (forecastAlign (prepX (futureExpand rows)) mc).rows).length := by
    rw [List.length_zipWith, hx, min_self]
    exact h1
  rw [List.getD_eq_getElem _ _ hz, List.getElem_zipWith,
    List.getD_eq_getElem _ _ h1, List.getD_eq_getElem _ _ h2]

/-- C6: the Forecaster's output has exactly `3 n` rows for `n` input rows,
and the rows derived from input row `i` sit at positions `i`, `n + i` and
`2n + i` carrying years 2023, 2024 and 2025 respectively, the original
year being overwritten and every other field kept. -/
theorem c6_theorem (trees : List (List Real → Real)) (mc : List String)
    (rows : List FeatRow) (i : Nat) (h : i < rows.length) :
    (predictFuture trees mc rows).length = 3 * rows.length ∧
    ((predictFuture trees mc rows).getD i dFore).base =
      setYear 2023 (rows.getD i dFeat) ∧
    ((predictFuture trees mc rows).getD (rows.length + i) dFore).base =
      setYear 2024 (rows.getD i dFeat) ∧
    ((predictFuture trees mc rows).getD (2 * rows.length + i) dFore).base =
      setYear 2025 (rows.getD i dFeat) := by
  have hlen := predictFuture_length trees mc rows
  have hfe := futureExpand_getD rows i h
  have hb1 : i < (predictFuture trees mc rows).length := by rw [hlen]; omega
  have hb2 : rows.length + i < (predictFuture trees mc rows).length := by rw [hlen]; omega
  have hb3 : 2 * rows.length + i < (predictFuture trees mc rows).length := by
    rw [hlen]; omega
  obtain ⟨x1, he1⟩ := predictFuture_fields trees mc rows i hb1
  obtain ⟨x2, he2⟩ := predictFuture_fields trees mc rows (rows.length + i) hb2
  obtain ⟨x3, he3⟩ := predictFuture_fields trees mc rows (2 * rows.length + i) hb3
  refine ⟨hlen, ?_, ?_, ?_⟩
  · rw [he1]; exact hfe.1
  · rw [he2]; exact hfe.2.1
  · rw [he3]; exact hfe.2.2

/-- Witness for `c6_theorem` at a one-row batch. -/
theorem c6_witness :
    0 < ([fRow2015] : List FeatRow).length ∧
    ((predictFuture [] [] [fRow2015]).length = 3 * ([fRow2015] : List FeatRow).length ∧
      ((predictFuture [] [] [fRow2015]).getD 0 dFore).base =
        setYear 2023 (([fRow2015] : List FeatRow).getD 0 dFeat) ∧
      ((predictFuture [] [] [fRow2015]).getD (([fRow2015] : List FeatRow).length + 0) dFore).base =
        setYear 2024 (([fRow2015] : List FeatRow).getD 0 dFeat) ∧
      ((predictFuture [] [] [fRow2015]).getD
          (2 * ([fRow2015] : List FeatRow).length + 0) dFore).base =
        setYear 2025 (([fRow2015] : List FeatRow).getD 0 dFeat)) :=
  ⟨by simp, c6_theorem [] [] [fRow2015] 0 (by simp)⟩

/-- C7: for every forecast row, the confidence is `1 / (1 + std)` where
`std` is the standard deviation of the individual tree predictions on that
row's feature vector; the standard deviation is nonnegative, so the
confidence lies in `(0, 1]`, and `1 / (1 + s)` is strictly decreasing on
nonnegative standard deviations. -/
theorem c7_theorem (trees : List (List Real → Real)) (mc : List String)
    (rows : List FeatRow) (i : Nat) (h : i < (predictFuture trees mc rows).length) :
    (∃ xr : List Real,
      ((predictFuture trees mc rows).getD i dFore).predicted_value =
        listMeanR (trees.map (fun t => t xr)) ∧
      ((predictFuture trees mc rows).getD i dFore).prediction_std =
        stdDevR (trees.map (fun t => t xr))) ∧
    0 ≤ ((predictFuture trees mc rows).getD i dFore).prediction_std ∧
    ((predictFuture trees mc rows).getD i dFore).prediction_confidence =
      1 / (1 + ((predictFuture trees mc rows).getD i dFore).prediction_std) ∧
    0 < ((predictFuture trees mc rows).getD i dFore).prediction_confidence ∧
    ((predictFuture trees mc rows).getD i dFore).prediction_confidence ≤ 1 ∧
    (∀ s1 s2 : Real, 0 ≤ s1 → s1 < s2 → 1 / (1 + s2) < 1 / (1 + s1)) := by
  obtain ⟨xr, he⟩ := predictFuture_fields trees mc rows i h
  rw [he]
  have hstd : 0 ≤ stdDevR (trees.map (fun t => t xr)) := Real.sqrt_nonneg _
  have hpos : (0 : Real) < 1 + stdDevR (trees.map (fun t => t xr)) := by linarith
  refine ⟨⟨xr, rfl, rfl⟩, hstd, rfl, ?_, ?_, ?_⟩
  · exact div_pos one_pos hpos
  · rw [div_le_one hpos]
    linarith
  · intro s1 s2 h0 h12
    exact one_div_lt_one_div_of_lt (by linarith) (by linarith)

/-- Witness for `c7_theorem`: the one-tree forest on the one-row batch. -/
theorem c7_witness :
    0 < (predictFuture [fun _ => (0 : Real)] [] [fRow2015]).length ∧
    ((∃ xr : List Real,
        ((predictFuture [fun _ => (0 : Real)] [] [fRow2015]).getD 0 dFore).predicted_value =
          listMeanR (([fun _ => (0 : Real)] : List (List Real → Real)).map (fun t => t xr)) ∧
        ((predictFuture [fun _ => (0 : Real)] [] [fRow2015]).getD 0 dFore).prediction_std =
          stdDevR (([fun _ => (0 : Real)] : List (List Real → Real)).map (fun t => t xr))) ∧
      0 ≤ ((predictFuture [fun _ => (0 : Real)] [] [fRow2015]).getD 0 dFore).prediction_std ∧
      ((predictFuture [fun _ => (0 : Real)] [] [fRow2015]).getD 0 dFore).prediction_confidence =
        1 / (1 + ((predictFuture [fun _ => (0 : Real)] [] [fRow2015]).getD 0
          dFore).prediction_std) ∧
      0 < ((predictFuture [fun _ => (0 : Real)] [] [fRow2015]).getD 0
        dFore).prediction_confidence ∧
      ((predictFuture [fun _ => (0 : Real)] [] [fRow2015]).getD 0
        dFore).prediction_confidence ≤ 1 ∧
      (∀ s1 s2 : Real, 0 ≤ s1 → s1 < s2 → 1 / (1 + s2) < 1 / (1 + s1))) :=
  ⟨by rw [predictFuture_length]; simp,
    c7_theorem [fun _ => (0 : Real)] [] [fRow2015] 0 (by rw [predictFuture_length]; simp)⟩

/-! ## Claims about the Feature Engine -/

/-- Default cleaned row for positional lookups. -/
def cdef : CleanRow :=
  { id := none, indicator_code := "", region_code := "", region := "",
    country_iso3 := "", year := none, sex := "", value := 0, low := none,
    high := none, date_reported := none }

theorem wgpAux_length {α K : Type} [DecidableEq K] (key : α → K) :
    ∀ (l seen : List α), (wgpAux key seen l).length = l.length
  | [], _ => rfl
  | x :: xs, seen => by
    simp only [wgpAux, List.length_cons, wgpAux_length key xs]

theorem wgpAux_map_fst {α K : Type} [DecidableEq K] (key : α → K) :
    ∀ (l seen : List α), (wgpAux key seen l).map Prod.fst = l
  | [], _ => rfl
  | x :: xs, seen => by
    simp only [wgpAux, List.map_cons, wgpAux_map_fst key xs]

/-- Element `i` of the group-position scan: the row itself, paired with the
number of earlier rows of the same key. -/
theorem wgpAux_getD {α K : Type} [DecidableEq K] (key : α → K) (l : List α) :
    ∀ (seen : List α) (i : Nat), i < l.length → ∀ (d : α × Nat) (da : α),
      (wgpAux key seen l).getD i d =
        (l.getD i da,
          ((seen ++ l.take i).filter (fun y => key y = key (l.getD i da))).length) := by
  induction l with
  | nil => intro seen i h d da; exact absurd h (by simp)
  | cons x xs ih =>
    intro seen i h d da
    cases i with
    | zero => simp [wgpAux]
    | succ j =>
      have hj : j < xs.length := by simpa using h
      simp only [wgpAux, List.getD_cons_succ, List.take_succ_cons]
      rw [ih (seen ++ [x]) j hj d da]
      simp [List.append_assoc]

theorem addDerived_length (s : List CleanRow) : (addDerived s).length = s.length := by
  simp only [addDerived, withGroupPos, List.length_map]
  rw [wgpAux_length]

theorem addDerived_map_base : ∀ (s : List CleanRow),
    (addDerived s).map (fun f => (f.id, f.indicator_code, f.country_iso3,
      f.region_code, f.region, f.year, f.sex, f.value, f.low, f.high)) =
    s.map (fun c => (c.id, c.indicator_code, c.country_iso3,
      c.region_code, c.region, c.year, c.sex, c.value, c.low, c.high)) := by
  intro s
  unfold addDerived withGroupPos
  rw [List.map_map]
  have hcomp : ((fun f : FeatRow => (f.id, f.indicator_code, f.country_iso3,
      f.region_code, f.region, f.year, f.sex, f.value, f.low, f.high)) ∘
        (fun rp : CleanRow × Nat => mkFeat s rp.1 rp.2)) =
      ((fun c : CleanRow => (c.id, c.indicator_code, c.country_iso3,
        c.region_code, c.region, c.year, c.sex, c.value, c.low, c.high)) ∘ Prod.fst) := rfl
  rw [hcomp, ← List.map_map, wgpAux_map_fst]

/-- The derived row at position `i`: `mkFeat` of the row at `i` and its
position within its group. -/
theorem addDerived_getD (s : List CleanRow) (i : Nat) (h : i < s.length) :
    (addDerived s).getD i dFeat =
      mkFeat s (s.getD i cdef)
        ((s.take i).filter (fun y => grpKey y = grpKey (s.getD i cdef))).length := by
  unfold addDerived withGroupPos
  rw [getD_map_lt (fun rp : CleanRow × Nat => mkFeat s rp.1 rp.2) _ i
    (by rw [wgpAux_length]; exact h) (cdef, 0) dFeat]
  rw [wgpAux_getD grpKey s [] i h (cdef, 0) cdef]
  simp

/-- Deriving columns preserves the sort order, because the sort keys are
copied fields. -/
theorem sorted_addDerived (s : List CleanRow) (hs : List.Sorted cleanLe s) :
    List.Sorted featLe (addDerived s) := by
  unfold addDerived withGroupPos
  have h0 : List.Pairwise cleanLe ((wgpAux grpKey [] s).map Prod.fst) := by
    rw [wgpAux_map_fst]; exact hs
  have h1 : List.Pairwise (fun a b : CleanRow × Nat => cleanLe a.1 b.1)
      (wgpAux grpKey [] s) := List.pairwise_map.mp h0
  exact List.Pairwise.map _ (fun a b hab => hab) h1

/-- The final sort of `engineer_features` is a no-op: the derived frame is
already sorted by the same keys. -/
theorem engineerFeatures_eq (rows : List CleanRow) :
    engineerFeatures rows = addDerived (List.insertionSort cleanLe rows) := by
  unfold engineerFeatures
  exact List.Sorted.insertionSort_eq
    (sorted_addDerived _ (List.sorted_insertionSort cleanLe rows))

/-- C10: the Feature Engine is row-preserving.  The output has exactly one
row per input row; the multiset of carried-through fields (id,
indicator_code, country_iso3, region_code, region, year, sex, value, low,
high) is exactly that of the input; and the output is sorted by
(indicator_code, country_iso3, year). -/
theorem c10_theorem (rows : List CleanRow) :
    (engineerFeatures rows).length = rows.length ∧
    ((engineerFeatures rows).map (fun f => (f.id, f.indicator_code, f.country_iso3,
      f.region_code, f.region, f.year, f.sex, f.value, f.low, f.high))).Perm
      (rows.map (fun c => (c.id, c.indicator_code, c.country_iso3,
        c.region_code, c.region, c.year, c.sex, c.value, c.low, c.high))) ∧
    List.Sorted featLe (engineerFeatures rows) := by
  refine ⟨?_, ?_, ?_⟩
  · rw [engineerFeatures_eq, addDerived_length, List.length_insertionSort]
  · rw [engineerFeatures_eq, addDerived_map_base]
    exact (List.perm_insertionSort cleanLe rows).map _
  · unfold engineerFeatures
    exact List.sorted_insertionSort featLe _

/-! ### The percent-change column (C5) -/

/-- The NaN arithmetic of nodes_features.py line 61 in closed form. -/
theorem pct_formula (v : Rat) (prev : Option Rat) :
    omul (odiv (osub (some v) prev) (replace0 prev)) (some 100) =
      match prev with
      | none => none
      | some pv => if pv = 0 then none else some (100 * (v - pv) / pv) := by
  cases prev with
  | none => rfl
  | some pv =>
    by_cases hz : pv = 0
    · simp [replace0, hz, osub, odiv, omul]
    · simp only [replace0, if_neg hz, osub, odiv, omul, if_neg hz]
      rw [Option.some.injEq]
      ring

/-- The pct-change field of one derived row in closed form. -/
theorem mkFeat_pct (s : List CleanRow) (r : CleanRow) (p : Nat) :
    (mkFeat s r p).value_pct_change =
      if p = 0 then none
      else if (grpSeq s r).getD (p - 1) 0 = 0 then none
      else some (100 * (r.value - (grpSeq s r).getD (p - 1) 0) /
        (grpSeq s r).getD (p - 1) 0) := by
  have hshow : (mkFeat s r p).value_pct_change =
      omul (odiv (osub (some r.value)
          (if p = 0 then none else some ((grpSeq s r).getD (p - 1) 0)))
        (replace0 (if p = 0 then none else some ((grpSeq s r).getD (p - 1) 0))))
        (some 100) := rfl
  rw [hshow,
    pct_formula r.value (if p = 0 then none else some ((grpSeq s r).getD (p - 1) 0))]
  by_cases hp : p = 0
  · rw [if_pos hp, if_pos hp]
  · rw [if_neg hp, if_neg hp]

/-- The sorted frame the Feature Engine derives from. -/
def sortedClean (rows : List CleanRow) : List CleanRow :=
  List.insertionSort cleanLe rows

/-- Position of row `i` within its indicator+country group of `s`. -/
def gposAt (s : List CleanRow) (i : Nat) : Nat :=
  ((s.take i).filter (fun y => grpKey y = grpKey (s.getD i cdef))).length

/-- The previous value of row `i`'s group (meaningful when `gposAt` is
positive): the value of the group's preceding row in the year-sorted
order. -/
def prevAt (s : List CleanRow) (i : Nat) : Rat :=
  (grpSeq s (s.getD i cdef)).getD (gposAt s i - 1) 0

/-- C5 (amended): `value_pct_change` of the row at position `i` of the
engineered output is `100 * (value - prev) / prev` where `prev` is the
value of the immediately preceding row of the same indicator+country group
in the year-sorted frame (the preceding data point, which is the
immediately preceding year only when the group has one row per year);
the result is undefined (NaN) when the row is first in its group or when
the preceding value is 0, and the computation is total — never a division
error. -/
theorem c5_theorem (rows : List CleanRow) (i : Nat) (h : i < rows.length) :
    ((engineerFeatures rows).getD i dFeat).value_pct_change =
      (if gposAt (sortedClean rows) i = 0 then none
       else if prevAt (sortedClean rows) i = 0 then none
       else some (100 * (((sortedClean rows).getD i cdef).value -
          prevAt (sortedClean rows) i) / prevAt (sortedClean rows) i)) := by
  have hs : i < (sortedClean rows).length := by
    unfold sortedClean; rw [List.length_insertionSort]; exact h
  rw [engineerFeatures_eq]
  have hrw : addDerived (List.insertionSort cleanLe rows) =
      addDerived (sortedClean rows) := rfl
  rw [hrw, addDerived_getD _ i hs, mkFeat_pct]
  rfl

/-- Cleaned row: indicator A, USA, year 2000, male, value 1. -/
def cleanA : CleanRow :=
  { id := some ("1"), indicator_code := "A", region_code := "AMR",
    region := "Americas", country_iso3 := "USA", year := some 2000,
    sex := "MLE", value := 1, low := none, high := none, date_reported := none }

/-- Same indicator, country and year as `cleanA`, female, value 2. -/
def cleanB : CleanRow :=
  { cleanA with
    id := some ("2")
    sex := "FMLE"
    value := 2 }

unseal Rat.inv Rat.mul Rat.add Rat.sub in
/-- C5 counterexample: the `shift(1)` groups only by indicator+country, so
with two rows of the same year (male and female), the second row's
`value_pct_change` is computed against the first row — the same year — and
is defined (here 100), although the claim makes it undefined because the
group has no preceding year at all. -/
theorem c5_counterexample :
    (engineerFeatures [cleanA, cleanB]).map (fun r => r.value_pct_change) =
      [none, some 100] ∧
    (engineerFeatures [cleanA, cleanB]).map
        (fun r => (r.indicator_code, r.country_iso3, r.year)) =
      [("A", "USA", some 2000), ("A", "USA", some 2000)] := by
  constructor
  · decide
  · decide

/-- Witness for `c5_theorem` at the one-row batch. -/
theorem c5_witness :
    0 < ([cleanA] : List CleanRow).length ∧
    ((engineerFeatures [cleanA]).getD 0 dFeat).value_pct_change =
      (if gposAt (sortedClean [cleanA]) 0 = 0 then none
       else if prevAt (sortedClean [cleanA]) 0 = 0 then none
       else some (100 * (((sortedClean [cleanA]).getD 0 cdef).value -
          prevAt (sortedClean [cleanA]) 0) / prevAt (sortedClean [cleanA]) 0)) :=
  ⟨by decide, c5_theorem [cleanA] 0 (by decide)⟩

end WhoPipeline
